import Mathlib

/-!
Verification of the Transformix front-end core (frontend/src/App.jsx):
capability discovery, icon selection, the dynamic upload form and its
multipart body construction, the transfer/result handler (download-name
extraction, error-message cascade), and the busy-flag submission gate.

The JavaScript source is shallowly embedded: the `submit` handler becomes a
pure function producing the ordered list of observable events (state setters,
the network POST, the triggered download); DOM input values are `Option String`
(`none` = the input is not rendered for the selected capability, `some ""` =
rendered but left blank), matching the `e.target.x?.value` accesses; JavaScript
truthiness on strings is `s ≠ ""`.
-/

/-- JavaScript `s.toLowerCase()`, modelled character by character
(`Char.toLower`); agrees with the source on the ASCII capability names the
keyword checks inspect. -/
def lowerStr (s : String) : String :=
  String.mk (s.toList.map Char.toLower)

/-- A capability record as delivered by the discovery endpoint
(`GET /api/`): `name`, `from_type`, `to_type`, `endpoint` string fields. -/
structure Capability where
  name : String
  from_type : String
  to_type : String
  endpoint : String
deriving DecidableEq, Repr

/-- `listContains needle hay`: `needle` occurs as a contiguous substring of
`hay` (character-list form of JavaScript `String.prototype.includes`). -/
def listContains (needle : List Char) : List Char → Bool
  | [] => needle.isEmpty
  | c :: rest => needle.isPrefixOf (c :: rest) || listContains needle rest

/-- JavaScript `hay.includes(needle)`. -/
def strContains (hay needle : String) : Bool :=
  listContains needle.toList hay.toList

/-- The icons imported from lucide-react that `iconFor` can return. -/
inductive Icon
  | fileDown
  | fileUp
  | imageIcon
  | fileType
  | shield
  | scissors
  | rotateCw
  | linkIcon
  | fileArchive
deriving DecidableEq, Repr

/-- `iconFor` (App.jsx lines 29-40): lowercase the capability name and test
keywords in source order, first match wins, `FileUp` as the fallback. -/
def iconFor (cap : Capability) : Icon :=
  let n := lowerStr cap.name
  if strContains n "merge" then Icon.fileArchive
  else if strContains n "split" then Icon.scissors
  else if strContains n "rotate" then Icon.rotateCw
  else if strContains n "protect" || strContains n "unlock" then Icon.shield
  else if strContains n "jpg" || strContains n "image" then Icon.imageIcon
  else if strContains n "html" then Icon.linkIcon
  else if strContains n "compress" then Icon.fileDown
  else if strContains n "pdf" && strContains n "word" then Icon.fileType
  else Icon.fileUp

/-- The spec's priority-ordered rule list (§4.2): keyword predicate paired
with the icon it selects, in the fixed order
merge, split, rotate, protect/unlock, image/jpg, html, compress,
pdf-and-word-combination. -/
def iconRules : List ((String → Bool) × Icon) :=
  [ (fun n => strContains n "merge", Icon.fileArchive)
  , (fun n => strContains n "split", Icon.scissors)
  , (fun n => strContains n "rotate", Icon.rotateCw)
  , (fun n => strContains n "protect" || strContains n "unlock", Icon.shield)
  , (fun n => strContains n "jpg" || strContains n "image", Icon.imageIcon)
  , (fun n => strContains n "html", Icon.linkIcon)
  , (fun n => strContains n "compress", Icon.fileDown)
  , (fun n => strContains n "pdf" && strContains n "word", Icon.fileType) ]

/-- First-match selection over an ordered rule list, defaulting to the
fallback icon `FileUp` when no rule fires. -/
def firstMatch (n : String) : List ((String → Bool) × Icon) → Icon
  | [] => Icon.fileUp
  | (p, i) :: rest => if p n then i else firstMatch n rest

/-- Icon selection as the spec words it: a first-match scan of the
priority-ordered rules against the lowercased capability name. -/
def iconSpecFM (cap : Capability) : Icon :=
  firstMatch (lowerStr cap.name) iconRules

/-- The pattern of the regex `/filename=([^;]+)/i` (App.jsx line 137). -/
def fnPat : List Char := "filename=".toList

/-- `exec` of `/filename=([^;]+)/i` on a character list: scan left to right
for a position where `filename=` matches case-insensitively and at least one
non-`;` character follows; the capture is the maximal run of non-`;`
characters after the `=`, taken from the original (uncased) text. -/
def execFilename : List Char → Option String
  | [] => none
  | c :: rest =>
    if fnPat.isPrefixOf ((c :: rest).map Char.toLower) then
      let cap := ((c :: rest).drop fnPat.length).takeWhile (fun ch => ch ≠ ';')
      if cap.isEmpty then execFilename rest
      else some (String.mk cap)
    else execFilename rest

/-- App.jsx lines 136-138: read the `content-disposition` header (absent
header treated as the empty string), run the filename regex, and fall back to
`download` when there is no match. -/
def downloadName (contentDisposition : Option String) : String :=
  match execFilename (contentDisposition.getD "").toList with
  | some s => s
  | none => "download"

/-- A locally selected file, identified by its name. -/
abbrev UpFile := String

/-- A value appended to the `FormData`: either a string or a file. -/
inductive FormVal
  | str (s : String)
  | file (f : UpFile)
deriving DecidableEq, Repr

/-- The form inputs the `submit` handler reads off `e.target`.  Scalar inputs
are `Option String`: `none` when the input is not rendered for the selected
capability (so `e.target.x?.value` is `undefined`), `some v` for its string
value.  `files` and `images` are the file lists of the two multiple-file
inputs (`e.target.files.files` for merge, `e.target.images.files` for
images-to-pdf). -/
structure FormInputs where
  url : Option String
  html : Option String
  quality : Option String
  from_page : Option String
  to_page : Option String
  degrees : Option String
  password : Option String
  text : Option String
  opacity : Option String
  size : Option String
  start : Option String
  format : Option String
  position : Option String
  nsize : Option String
  pages : Option String
  order : Option String
  files : List UpFile
  images : List UpFile
deriving DecidableEq, Repr

/-- JavaScript truthiness for an optional string: `undefined` and the empty
string are falsy. -/
def truthy (v : Option String) : Bool :=
  match v with
  | some s => s ≠ ""
  | none => false

/-- `x?.value || d` as used for the scalar parameters: the default (already
stringified, as `FormData.append` stringifies numbers) replaces both a
missing input and a blank one. -/
def orElseVal (v : Option String) (d : String) : String :=
  match v with
  | some s => if s = "" then d else s
  | none => d

/-- JavaScript `s.trim()`: drop leading and trailing whitespace, modelled on
the character list. -/
def trimStr (s : String) : String :=
  String.mk
    (((s.toList.dropWhile Char.isWhitespace).reverse.dropWhile
        Char.isWhitespace).reverse)

/-- `e.target.url?.value?.trim()`. -/
def optTrim (v : Option String) : Option String :=
  v.map trimStr

/-- App.jsx lines 89-90: after the both-empty check, append the trimmed `url`
and the untrimmed `html` when each is truthy. -/
def htmlPrimary (t : FormInputs) : List (String × FormVal) :=
  (match optTrim t.url with
   | some u => if u = "" then [] else [("url", FormVal.str u)]
   | none => []) ++
  (match t.html with
   | some h => if h = "" then [] else [("html", FormVal.str h)]
   | none => [])

/-- App.jsx lines 81-97: the primary payload of the multipart body, chosen by
the `else if` chain html-to-pdf, merge, images-to-pdf, single file.  In the
single-file branch `form.append('file', file)` with a null file stringifies
to `"null"`; the `submit` handler never reaches that branch with no file. -/
def primaryPart (sel : Capability) (t : FormInputs) (file : Option UpFile) :
    List (String × FormVal) :=
  if strContains sel.endpoint "/html-to-pdf" then htmlPrimary t
  else if strContains sel.endpoint "/merge" then
    t.files.map (fun f => ("files", FormVal.file f))
  else if strContains sel.endpoint "/images-to-pdf" then
    t.images.map (fun f => ("files", FormVal.file f))
  else
    [("file", match file with
              | some f => FormVal.file f
              | none => FormVal.str "null")]

/-- App.jsx lines 99-130: the extra scalar parameters, each gated by its own
substring test on the endpoint (the tests are independent, not exclusive),
appended in source order with the source's defaults. -/
def extraParams (sel : Capability) (t : FormInputs) (wmImage : Option UpFile) :
    List (String × FormVal) :=
  (if strContains sel.endpoint "/compress" then
    [("quality", FormVal.str (orElseVal t.quality "85"))]
   else []) ++
  (if strContains sel.endpoint "/split" then
    [("from_page", FormVal.str (orElseVal t.from_page "1")),
     ("to_page", FormVal.str (orElseVal t.to_page ""))]
   else []) ++
  (if strContains sel.endpoint "/rotate" then
    [("degrees", FormVal.str (orElseVal t.degrees "90"))]
   else []) ++
  (if strContains sel.endpoint "/protect" || strContains sel.endpoint "/unlock" then
    [("password", FormVal.str (orElseVal t.password ""))]
   else []) ++
  (if strContains sel.endpoint "/watermark" then
    (if truthy t.text then [("text", FormVal.str (t.text.getD ""))] else []) ++
    (match wmImage with
     | some w => [("image", FormVal.file w)]
     | none => []) ++
    [("opacity", FormVal.str (orElseVal t.opacity "0.2")),
     ("size", FormVal.str (orElseVal t.size "48"))]
   else []) ++
  (if strContains sel.endpoint "/page-numbers" then
    [("start", FormVal.str (orElseVal t.start "1")),
     ("format", FormVal.str (orElseVal t.format "{n}")),
     ("position", FormVal.str (orElseVal t.position "bottom-right")),
     ("size", FormVal.str (orElseVal t.nsize "10"))]
   else []) ++
  (if strContains sel.endpoint "/delete-pages" then
    [("pages", FormVal.str (orElseVal t.pages ""))]
   else []) ++
  (if strContains sel.endpoint "/reorder" then
    [("order", FormVal.str (orElseVal t.order ""))]
   else [])

/-- The full multipart body composed by `submit` once local validation has
passed: primary payload first, then the extra parameters. -/
def buildForm (sel : Capability) (t : FormInputs) (file wmImage : Option UpFile) :
    List (String × FormVal) :=
  primaryPart sel t file ++ extraParams sel t wmImage

/-- Drop leading whitespace (JSON insignificant whitespace). -/
def skipWs (cs : List Char) : List Char :=
  cs.dropWhile Char.isWhitespace

/-- Parse one JSON string literal without escape sequences: a `"`, a run of
characters other than `"` and backslash, a closing `"`.  Returns the string
and the rest of the input. -/
def parseJStr : List Char → Option (String × List Char)
  | '"' :: rest =>
    let body := rest.takeWhile (fun c => c ≠ '"' && c ≠ '\\')
    match rest.drop body.length with
    | '"' :: rest2 => some (String.mk body, rest2)
    | _ => none
  | _ => none

/-- Parse the comma-separated `"key":"value"` members of a JSON object,
accumulating pairs in order; stops before the closing brace.  `fuel` bounds
the recursion by the input length. -/
def parseMembers : Nat → List Char → List (String × String) →
    Option (List (String × String) × List Char)
  | 0, _, _ => none
  | fuel + 1, cs, acc =>
    match parseJStr (skipWs cs) with
    | none => none
    | some (k, rest) =>
      match skipWs rest with
      | ':' :: rest2 =>
        match parseJStr (skipWs rest2) with
        | none => none
        | some (v, rest3) =>
          match skipWs rest3 with
          | ',' :: rest4 => parseMembers fuel rest4 (acc ++ [(k, v)])
          | rest4 => some (acc ++ [(k, v)], rest4)
      | _ => none

/-- `JSON.parse`, modelled for the shape the error path exercises: a flat
object whose keys and values are escape-free string literals.  Any input
outside this fragment is a parse failure (the `catch` branch of the source).
Returns the member list in textual order. -/
def jsonParseObj (s : String) : Option (List (String × String)) :=
  match skipWs s.toList with
  | '{' :: rest =>
    match skipWs rest with
    | '}' :: tail => if (skipWs tail).isEmpty then some [] else none
    | _ =>
      match parseMembers (rest.length + 1) rest [] with
      | some (obj, rem) =>
        match rem with
        | '}' :: tail => if (skipWs tail).isEmpty then some obj else none
        | _ => none
      | none => none
  | _ => none

/-- `j.detail`: the value of the `detail` member; with duplicate keys the
last occurrence wins, as in `JSON.parse`. -/
def detailOf (obj : List (String × String)) : Option String :=
  (obj.reverse.find? (fun p => p.1 == "detail")).map (fun p => p.2)

/-- The decoded content of an error-response `Blob`: `text s` when
`blob.text()` resolves to `s`, `undecodable` when it rejects. -/
inductive BlobContent
  | text (s : String)
  | undecodable
deriving DecidableEq, Repr

/-- `err.response.data`: either a `Blob` or some other payload
(`other none` models an absent/null payload, `other (some s)` a string). -/
inductive ErrData
  | blob (content : BlobContent)
  | other (payload : Option String)
deriving DecidableEq, Repr

/-- The `response` field of an axios error. -/
structure ErrResponse where
  data : ErrData
deriving DecidableEq, Repr

/-- An axios error: its `message` and optional `response`. -/
structure AxiosErr where
  message : String
  response : Option ErrResponse
deriving DecidableEq, Repr

/-- App.jsx lines 143-158: the message surfaced on a failed submission.
Blob body: decode, parse as JSON and use `j.detail || text`, falling back to
the decoded text on a parse error and to `err.message` when decoding itself
throws; non-blob body: `err.response?.data || err.message`. -/
def errMessage (err : AxiosErr) : String :=
  match err.response with
  | some resp =>
    match resp.data with
    | ErrData.blob (BlobContent.text t) =>
      match jsonParseObj t with
      | some obj =>
        match detailOf obj with
        | some d => "Hata: " ++ (if d = "" then t else d)
        | none => "Hata: " ++ t
      | none => "Hata: " ++ t
    | ErrData.blob BlobContent.undecodable => "Hata: " ++ err.message
    | ErrData.other p =>
      "Hata: " ++ (match p with
                   | some s => if s = "" then err.message else s
                   | none => err.message)
  | none => "Hata: " ++ err.message

/-- A `FormInputs` with every scalar input absent and no files chosen. -/
def emptyInputs : FormInputs :=
  ⟨none, none, none, none, none, none, none, none, none, none, none, none,
   none, none, none, none, [], []⟩

/-- The outcome of the POST issued by `submit`: a success response carrying
an optional `content-disposition` header, or an axios error. -/
inductive NetResult
  | success (contentDisposition : Option String)
  | failure (err : AxiosErr)
deriving DecidableEq, Repr

/-- The observable effects of one run of the `submit` handler, in order:
`setMessage` / `setBusy` state updates, the network POST with its URL and
multipart body, and the triggered browser download (`a.click()`). -/
inductive Event
  | setMessage (s : String)
  | setBusy (b : Bool)
  | post (url : String) (form : List (String × FormVal))
  | download (name : String)
deriving DecidableEq, Repr

/-- App.jsx lines 66-162, the `submit` handler as its ordered event trace.
`file` and `wmImage` are the component state set by the file inputs, `t` the
named inputs read off `e.target`, `net` the outcome of the POST (consulted
only when the POST is reached).  The trailing `setBusy false` of the
non-short-circuit paths is the `finally` block; the html-to-pdf validation
branch also runs its own explicit `setBusy(false)` before returning. -/
def submit (sel : Capability) (t : FormInputs) (file wmImage : Option UpFile)
    (net : NetResult) : List Event :=
  let isMerge := strContains sel.endpoint "/merge"
  let isHtmlToPdf := strContains sel.endpoint "/html-to-pdf"
  let isImagesToPdf := strContains sel.endpoint "/images-to-pdf"
  let requiresFile := !(isMerge || isHtmlToPdf || isImagesToPdf)
  if requiresFile && file.isNone then
    [Event.setMessage "Lütfen dosya seçin"]
  else
    [Event.setBusy true, Event.setMessage ""] ++
    (if isHtmlToPdf && !truthy (optTrim t.url) && !truthy t.html then
      [Event.setMessage "URL veya HTML içeriği girin", Event.setBusy false]
    else
      Event.post ("/api" ++ sel.endpoint) (buildForm sel t file wmImage) ::
      (match net with
       | NetResult.success cd =>
         [Event.download (downloadName cd), Event.setMessage "İndirme başladı"]
       | NetResult.failure err => [Event.setMessage (errMessage err)])) ++
    [Event.setBusy false]

/-- The uploader's local state relevant to the claims: the busy flag and the
message line. -/
structure UiState where
  busy : Bool
  message : String
deriving DecidableEq, Repr

/-- How one event updates the uploader state. -/
def stepEvent (s : UiState) : Event → UiState
  | Event.setMessage m => { s with message := m }
  | Event.setBusy b => { s with busy := b }
  | Event.post _ _ => s
  | Event.download _ => s

/-- Run an event trace from a starting state. -/
def runEvents (s : UiState) (es : List Event) : UiState :=
  es.foldl stepEvent s

/-- Whether an event is the network POST. -/
def isPost : Event → Bool
  | Event.post _ _ => true
  | _ => false

/-- The busy flag alone, updated by an event. -/
def busyStep (b : Bool) : Event → Bool
  | Event.setBusy b2 => b2
  | _ => b

/-- `postsWhileBusy b es`: along the trace `es` started with busy flag `b`,
every POST event happens while the busy flag is `true`. -/
def postsWhileBusy : Bool → List Event → Bool
  | _, [] => true
  | b, e :: rest => (!isPost e || b) && postsWhileBusy (busyStep b e) rest

/-- App.jsx line 297: the submit control is disabled exactly when the busy
flag is set (`disabled={busy}`). -/
def submitDisabled (s : UiState) : Bool :=
  s.busy

/-- The outcome of the one-time capability-discovery fetch. -/
inductive FetchOutcome
  | ok (caps : List Capability)
  | failed
deriving DecidableEq, Repr

/-- App.jsx lines 312-314: `axios.get('/api/').then(r => setCaps(r.data))
.catch(() => setCaps([]))` — the stored capability list after the fetch
settles.  Totality of this function is the embedding of "no error is
propagated": the `catch` swallows every failure. -/
def capsAfterLoad : FetchOutcome → List Capability
  | FetchOutcome.ok caps => caps
  | FetchOutcome.failed => []

/-- What one capability card displays (App.jsx lines 42-56): the selected
icon, the name, and the `from_type → to_type` pair. -/
structure Card where
  icon : Icon
  title : String
  fromType : String
  toType : String
deriving DecidableEq, Repr

/-- App.jsx lines 325-329: one card per stored capability, in list order. -/
def renderCards (caps : List Capability) : List Card :=
  caps.map (fun c => ⟨iconFor c, c.name, c.from_type, c.to_type⟩)

/-- The discovery requests issued by the mount effect: exactly one GET of
`/api/`, with no retry on failure. -/
def discoveryRequests : List String :=
  ["/api/"]

/-- Case-insensitive substring test, used to state when the filename regex
has no match at all in a header value. -/
def containsCI (hay needle : String) : Bool :=
  listContains (lowerStr needle).toList (hay.toList.map Char.toLower)

/-- When `filename=` does not occur case-insensitively in the text, the
regex scan finds no match. -/
theorem execFilename_eq_none (cs : List Char)
    (h : listContains fnPat (cs.map Char.toLower) = false) :
    execFilename cs = none := by
  induction cs with
  | nil => rfl
  | cons c rest ih =>
    simp only [List.map_cons, listContains, Bool.or_eq_false_iff] at h
    simp only [execFilename, List.map_cons, h.1, Bool.false_eq_true, if_false]
    exact ih h.2

/-- Claim C4: icon selection is a deterministic first-match function of the
capability name under case-insensitive keyword checks, in the fixed order
merge, split, rotate, protect/unlock, image/jpg, html, compress,
pdf-and-word, then the fallback; a capability named "Merge and Split"
resolves to the merge icon, not the split icon. -/
theorem iconFor_first_match :
    (∀ cap : Capability, iconFor cap = iconSpecFM cap) ∧
    iconFor ⟨"Merge and Split", "PDF", "PDF", "/merge"⟩ = Icon.fileArchive := by
  constructor
  · intro cap
    rfl
  · decide

/-- Claim C5: the suggested download name is the first `filename=` token of
the `content-disposition` header; with header
`attachment; filename=report.pdf` it is `report.pdf`, and with the header
absent or the token unmatched it is the default `download`. -/
theorem downloadName_from_header :
    downloadName (some "attachment; filename=report.pdf") = "report.pdf" ∧
    downloadName (some "filename=a.pdf; filename=b.pdf") = "a.pdf" ∧
    downloadName (some "attachment; FILENAME=UP.PDF") = "UP.PDF" ∧
    downloadName none = "download" ∧
    (∀ h : String, containsCI h "filename=" = false →
      downloadName (some h) = "download") := by
  refine ⟨by decide, by decide, by decide, by decide, ?_⟩
  intro s hs
  have hnone : execFilename s.toList = none := execFilename_eq_none _ hs
  unfold downloadName
  rw [show ((some s).getD "") = s from rfl, hnone]

/-- Witness for C5: a concrete header with no `filename=` token falls back
to the default name. -/
theorem downloadName_from_header_witness :
    downloadName (some "attachment; name=x.pdf") = "download" :=
  downloadName_from_header.2.2.2.2 "attachment; name=x.pdf" (by decide)

/-- Claim C7: a failed discovery fetch stores the empty capability list with
no propagated error and no retry (a single request is ever issued); a
successful fetch stores the returned sequence as-is, and one card is
rendered per stored capability, in order. -/
theorem registry_load_and_render :
    capsAfterLoad FetchOutcome.failed = [] ∧
    discoveryRequests.length = 1 ∧
    (∀ caps, capsAfterLoad (FetchOutcome.ok caps) = caps) ∧
    (∀ caps, (renderCards caps).length = caps.length) ∧
    (∀ caps (i : Nat), (renderCards caps)[i]? =
      (caps[i]?).map (fun c => Card.mk (iconFor c) c.name c.from_type c.to_type)) := by
  refine ⟨rfl, rfl, fun _ => rfl, fun caps => ?_, fun caps i => ?_⟩
  · simp [renderCards]
  · simp [renderCards, List.getElem?_map]

/-- Claim C1: for a capability whose endpoint contains none of
`/html-to-pdf`, `/merge`, `/images-to-pdf`, submitting with no file selected
short-circuits: the trace is exactly the local validation message and
contains no network POST. -/
theorem submit_requires_file (sel : Capability) (t : FormInputs)
    (wmImage : Option UpFile) (net : NetResult)
    (h1 : strContains sel.endpoint "/html-to-pdf" = false)
    (h2 : strContains sel.endpoint "/merge" = false)
    (h3 : strContains sel.endpoint "/images-to-pdf" = false) :
    submit sel t none wmImage net = [Event.setMessage "Lütfen dosya seçin"] ∧
    ∀ u f, Event.post u f ∉ submit sel t none wmImage net := by
  have hs : submit sel t none wmImage net = [Event.setMessage "Lütfen dosya seçin"] := by
    simp [submit, h1, h2, h3]
  refine ⟨hs, fun u f => ?_⟩
  rw [hs]
  simp

/-- Witness for C1: the Word-to-PDF capability with no file selected. -/
theorem submit_requires_file_witness :
    submit ⟨"Word to PDF", "DOCX", "PDF", "/word-to-pdf"⟩ emptyInputs none none
        (NetResult.success none) = [Event.setMessage "Lütfen dosya seçin"] ∧
    ∀ u f, Event.post u f ∉
      submit ⟨"Word to PDF", "DOCX", "PDF", "/word-to-pdf"⟩ emptyInputs none none
        (NetResult.success none) :=
  submit_requires_file _ _ _ _ (by decide) (by decide) (by decide)

/-- Claim C3: for an `/html-to-pdf` capability with both `url` and `html`
empty, submission fails locally: the message is set, no POST is issued, and
the busy flag ends up cleared, leaving the form resubmittable. -/
theorem submit_html_validation (sel : Capability) (t : FormInputs)
    (file wmImage : Option UpFile) (net : NetResult)
    (hend : strContains sel.endpoint "/html-to-pdf" = true)
    (hu : t.url.getD "" = "") (hh : t.html.getD "" = "") :
    submit sel t file wmImage net =
      [Event.setBusy true, Event.setMessage "",
       Event.setMessage "URL veya HTML içeriği girin", Event.setBusy false,
       Event.setBusy false] ∧
    (∀ u f, Event.post u f ∉ submit sel t file wmImage net) ∧
    (runEvents ⟨false, ""⟩ (submit sel t file wmImage net)).busy = false := by
  have hu' : truthy (optTrim t.url) = false := by
    cases hurl : t.url with
    | none => rfl
    | some u =>
      have hue : u = "" := by simpa [hurl] using hu
      subst hue
      rfl
  have hh' : truthy t.html = false := by
    cases hhtml : t.html with
    | none => rfl
    | some v =>
      have hve : v = "" := by simpa [hhtml] using hh
      subst hve
      rfl
  have hs : submit sel t file wmImage net =
      [Event.setBusy true, Event.setMessage "",
       Event.setMessage "URL veya HTML içeriği girin", Event.setBusy false,
       Event.setBusy false] := by
    simp [submit, hend, hu', hh']
  refine ⟨hs, fun u f => ?_, ?_⟩
  · rw [hs]
    simp
  · rw [hs]
    rfl

/-- Claim C9: every POST in a submission trace happens while the busy flag
is true (and the submit control is disabled exactly when the flag is set),
and after every completed submission attempt — local validation failure,
success, or transfer failure — the busy flag is false again. -/
theorem submit_busy_gate (sel : Capability) (t : FormInputs)
    (file wmImage : Option UpFile) (net : NetResult) :
    postsWhileBusy false (submit sel t file wmImage net) = true ∧
    (runEvents ⟨false, ""⟩ (submit sel t file wmImage net)).busy = false ∧
    (∀ s : UiState, submitDisabled s = s.busy) := by
  refine ⟨?_, ?_, fun _ => rfl⟩ <;>
  · simp only [submit]
    split
    · rfl
    · split
      · rfl
      · cases net <;>
          simp [postsWhileBusy, busyStep, isPost, runEvents, stepEvent]

/-- Claim C2: the failure message cascade.  Blob error body: decoded text
parsed as JSON with a non-empty `detail` wins, then the decoded raw text
(on a parse failure or a missing `detail`), then the raw error message when
decoding throws; non-blob body: the provided payload when non-empty, else
the raw error message; and the binary-encoded JSON
`{"detail":"bad password"}` surfaces a message containing `bad password`. -/
theorem errMessage_cascade :
    (∀ (msg t : String) (obj : List (String × String)) (d : String),
      jsonParseObj t = some obj → detailOf obj = some d → d ≠ "" →
      errMessage ⟨msg, some ⟨ErrData.blob (BlobContent.text t)⟩⟩ = "Hata: " ++ d) ∧
    (∀ (msg t : String) (obj : List (String × String)),
      jsonParseObj t = some obj → detailOf obj = none →
      errMessage ⟨msg, some ⟨ErrData.blob (BlobContent.text t)⟩⟩ = "Hata: " ++ t) ∧
    (∀ msg t : String, jsonParseObj t = none →
      errMessage ⟨msg, some ⟨ErrData.blob (BlobContent.text t)⟩⟩ = "Hata: " ++ t) ∧
    (∀ msg : String,
      errMessage ⟨msg, some ⟨ErrData.blob BlobContent.undecodable⟩⟩ = "Hata: " ++ msg) ∧
    (∀ msg p : String, p ≠ "" →
      errMessage ⟨msg, some ⟨ErrData.other (some p)⟩⟩ = "Hata: " ++ p) ∧
    (∀ (msg : String) (p : Option String), truthy p = false →
      errMessage ⟨msg, some ⟨ErrData.other p⟩⟩ = "Hata: " ++ msg) ∧
    (∀ msg : String, errMessage ⟨msg, none⟩ = "Hata: " ++ msg) ∧
    strContains
      (errMessage ⟨"Request failed",
        some ⟨ErrData.blob (BlobContent.text "\x7b\"detail\":\"bad password\"\x7d")⟩⟩)
      "bad password" = true := by
  refine ⟨?_, ?_, ?_, fun _ => rfl, ?_, ?_, fun _ => rfl, by decide⟩
  · intro msg t obj d hp hd hne
    simp [errMessage, hp, hd, hne]
  · intro msg t obj hp hd
    simp [errMessage, hp, hd]
  · intro msg t hp
    simp [errMessage, hp]
  · intro msg p hne
    simp [errMessage, hne]
  · intro msg p hp
    cases p with
    | none => rfl
    | some s =>
      have hse : s = "" := by simpa [truthy] using hp
      subst hse
      rfl

/-- Witness for C2: the binary-encoded `detail` case and the non-blob
payload case at concrete inputs. -/
theorem errMessage_cascade_witness :
    errMessage ⟨"Request failed",
        some ⟨ErrData.blob (BlobContent.text "\x7b\"detail\":\"bad password\"\x7d")⟩⟩ =
      "Hata: " ++ "bad password" ∧
    errMessage ⟨"Network Error", some ⟨ErrData.other (some "boom")⟩⟩ =
      "Hata: " ++ "boom" ∧
    errMessage ⟨"timeout", some ⟨ErrData.blob (BlobContent.text "oops")⟩⟩ =
      "Hata: " ++ "oops" :=
  ⟨errMessage_cascade.1 "Request failed" _ [("detail", "bad password")]
      "bad password" (by decide) (by decide) (by decide),
   errMessage_cascade.2.2.2.2.1 "Network Error" "boom" (by decide),
   errMessage_cascade.2.2.1 "timeout" "oops" (by decide)⟩

/-- Claim C6: a `/compress` capability with the quality input at its default
submits the pair `quality=85`; a `/split` capability with only `from_page`
filled submits that value and an empty `to_page`. -/
theorem buildForm_defaults :
    (∀ (sel : Capability) (t : FormInputs) (file wmImage : Option UpFile),
      strContains sel.endpoint "/compress" = true → t.quality = some "85" →
      ("quality", FormVal.str "85") ∈ buildForm sel t file wmImage) ∧
    (∀ (sel : Capability) (t : FormInputs) (file wmImage : Option UpFile)
        (fp : String),
      strContains sel.endpoint "/split" = true → t.from_page = some fp →
      fp ≠ "" → t.to_page.getD "" = "" →
      ("from_page", FormVal.str fp) ∈ buildForm sel t file wmImage ∧
      ("to_page", FormVal.str "") ∈ buildForm sel t file wmImage) := by
  constructor
  · intro sel t file wmImage hc hq
    simp [buildForm, extraParams, orElseVal, hc, hq]
  · intro sel t file wmImage fp hs hfp hne hto
    have hto' : orElseVal t.to_page "" = "" := by
      cases ht : t.to_page with
      | none => rfl
      | some v =>
        have hve : v = "" := by simpa [ht] using hto
        subst hve
        rfl
    have hfp' : orElseVal t.from_page "1" = fp := by
      simp [orElseVal, hfp, hne]
    constructor <;> simp [buildForm, extraParams, hs, hfp', hto']

/-- Witness for C6: a concrete compress form and a concrete split form. -/
theorem buildForm_defaults_witness :
    ("quality", FormVal.str "85") ∈
      buildForm ⟨"Compress", "PDF", "PDF", "/pdf/compress"⟩
        { emptyInputs with quality := some "85" } (some "a.pdf") none ∧
    ("from_page", FormVal.str "2") ∈
      buildForm ⟨"Split", "PDF", "PDF", "/pdf/split"⟩
        { emptyInputs with from_page := some "2", to_page := some "" }
        (some "a.pdf") none ∧
    ("to_page", FormVal.str "") ∈
      buildForm ⟨"Split", "PDF", "PDF", "/pdf/split"⟩
        { emptyInputs with from_page := some "2", to_page := some "" }
        (some "a.pdf") none :=
  ⟨buildForm_defaults.1 _ _ _ _ (by decide) (by rfl),
   (buildForm_defaults.2 _ _ _ _ "2" (by decide) (by rfl) (by decide) (by rfl)).1,
   (buildForm_defaults.2 _ _ _ _ "2" (by decide) (by rfl) (by decide) (by rfl)).2⟩

/-- No extra-parameter segment ever uses `images` as a field name: the keys
appended by the parameter rules are drawn from the fixed set
quality, from_page, to_page, degrees, password, text, image, opacity, size,
start, format, position, pages, order. -/
theorem extraParams_keys_not_images (sel : Capability) (t : FormInputs)
    (wmImage : Option UpFile) :
    (extraParams sel t wmImage).all (fun e => !(e.1 == "images")) = true := by
  simp only [extraParams, List.all_append, Bool.and_eq_true]
  refine ⟨⟨⟨⟨⟨⟨⟨?_, ?_⟩, ?_⟩, ?_⟩, ?_⟩, ?_⟩, ?_⟩, ?_⟩
  all_goals split
  all_goals try rfl
  simp only [List.all_append, Bool.and_eq_true]
  refine ⟨⟨?_, ?_⟩, ?_⟩
  · split <;> rfl
  · cases wmImage <;> rfl
  · rfl

/-- Counterexample for C8 as stated: an endpoint containing both `/merge`
and `/images-to-pdf` takes the merge branch of the payload chain, so a file
chosen in the `images` input is not appended under `files`. -/
theorem images_remap_counterexample :
    strContains "/merge/images-to-pdf" "/images-to-pdf" = true ∧
    "a.png" ∈
      ({ emptyInputs with images := ["a.png"] } : FormInputs).images ∧
    ("files", FormVal.file "a.png") ∉
      buildForm ⟨"Merge or Images", "IMG", "PDF", "/merge/images-to-pdf"⟩
        { emptyInputs with images := ["a.png"] } none none := by decide

/-- Claim C8 (amended): for a capability whose endpoint contains
`/images-to-pdf` and contains neither `/merge` nor `/html-to-pdf`, every
file chosen in the `images` input is appended under the field name `files`,
and `images` never appears as a multipart field name. -/
theorem images_remapped_to_files (sel : Capability) (t : FormInputs)
    (file wmImage : Option UpFile)
    (h1 : strContains sel.endpoint "/images-to-pdf" = true)
    (h2 : strContains sel.endpoint "/merge" = false)
    (h3 : strContains sel.endpoint "/html-to-pdf" = false) :
    (∀ f ∈ t.images, ("files", FormVal.file f) ∈ buildForm sel t file wmImage) ∧
    (∀ v : FormVal, ("images", v) ∉ buildForm sel t file wmImage) := by
  constructor
  · intro f hf
    simp only [buildForm, primaryPart, h1, h2, h3, List.mem_append,
      Bool.false_eq_true, if_false, if_true]
    exact Or.inl (List.mem_map.mpr ⟨f, hf, rfl⟩)
  · intro v hmem
    rw [buildForm, List.mem_append] at hmem
    rcases hmem with hp | hx
    · simp [primaryPart, h1, h2, h3] at hp
    · have hall := extraParams_keys_not_images sel t wmImage
      rw [List.all_eq_true] at hall
      have := hall _ hx
      simp at this

/-- Witness for the amended C8: the plain `/images-to-pdf` capability with
two chosen images. -/
theorem images_remapped_to_files_witness :
    (∀ f ∈ ({ emptyInputs with images := ["a.png", "b.png"] } : FormInputs).images,
      ("files", FormVal.file f) ∈
        buildForm ⟨"Images to PDF", "IMG", "PDF", "/images-to-pdf"⟩
          { emptyInputs with images := ["a.png", "b.png"] } none none) ∧
    (∀ v : FormVal, ("images", v) ∉
      buildForm ⟨"Images to PDF", "IMG", "PDF", "/images-to-pdf"⟩
        { emptyInputs with images := ["a.png", "b.png"] } none none) :=
  images_remapped_to_files _ _ _ _ (by decide) (by decide) (by decide)

/-- Claim C10: on the html-to-pdf path the `url` value is trimmed before
both the emptiness check and submission, while the `html` value is not: a
whitespace-only `url` counts as empty, a whitespace-only `html` counts as
provided, passes the both-empty validation, and is appended verbatim; a
non-blank `url` is appended trimmed. -/
theorem submit_html_trim :
    (∀ (sel : Capability) (t : FormInputs) (file wmImage : Option UpFile)
        (net : NetResult) (u : String),
      strContains sel.endpoint "/html-to-pdf" = true →
      t.url = some u → trimStr u = "" → t.html.getD "" = "" →
      submit sel t file wmImage net =
        [Event.setBusy true, Event.setMessage "",
         Event.setMessage "URL veya HTML içeriği girin", Event.setBusy false,
         Event.setBusy false]) ∧
    (∀ (sel : Capability) (t : FormInputs) (file wmImage : Option UpFile)
        (net : NetResult) (h : String),
      strContains sel.endpoint "/html-to-pdf" = true →
      t.html = some h → h ≠ "" →
      ("html", FormVal.str h) ∈ buildForm sel t file wmImage ∧
      Event.post ("/api" ++ sel.endpoint) (buildForm sel t file wmImage) ∈
        submit sel t file wmImage net) ∧
    (∀ (sel : Capability) (t : FormInputs) (file wmImage : Option UpFile)
        (u : String),
      strContains sel.endpoint "/html-to-pdf" = true →
      t.url = some u → trimStr u ≠ "" →
      ("url", FormVal.str (trimStr u)) ∈ buildForm sel t file wmImage) := by
  refine ⟨?_, ?_, ?_⟩
  · intro sel t file wmImage net u hend hu htrim hh
    have hu' : truthy (optTrim t.url) = false := by
      simp [optTrim, truthy, hu, htrim]
    have hh' : truthy t.html = false := by
      cases hhtml : t.html with
      | none => rfl
      | some v =>
        have hve : v = "" := by simpa [hhtml] using hh
        subst hve
        rfl
    simp [submit, hend, hu', hh']
  · intro sel t file wmImage net h hend hhtml hne
    have hh' : truthy t.html = true := by
      simp [truthy, hhtml, hne]
    constructor
    · simp [buildForm, primaryPart, htmlPrimary, hend, hhtml, hne]
    · simp [submit, hend, hh']
  · intro sel t file wmImage u hend hu htrim
    simp [buildForm, primaryPart, htmlPrimary, optTrim, hend, hu, htrim]

/-- Witness for C10: whitespace-only url rejected, whitespace-only html
accepted and appended verbatim, and a padded url appended trimmed. -/
theorem submit_html_trim_witness :
    submit ⟨"HTML to PDF", "HTML", "PDF", "/html-to-pdf"⟩
        { emptyInputs with url := some "  " } none none
        (NetResult.success none) =
      [Event.setBusy true, Event.setMessage "",
       Event.setMessage "URL veya HTML içeriği girin", Event.setBusy false,
       Event.setBusy false] ∧
    (("html", FormVal.str "  ") ∈
      buildForm ⟨"HTML to PDF", "HTML", "PDF", "/html-to-pdf"⟩
        { emptyInputs with html := some "  " } none none ∧
     Event.post "/api/html-to-pdf"
        (buildForm ⟨"HTML to PDF", "HTML", "PDF", "/html-to-pdf"⟩
          { emptyInputs with html := some "  " } none none) ∈
       submit ⟨"HTML to PDF", "HTML", "PDF", "/html-to-pdf"⟩
         { emptyInputs with html := some "  " } none none
         (NetResult.success none)) ∧
    ("url", FormVal.str "x") ∈
      buildForm ⟨"HTML to PDF", "HTML", "PDF", "/html-to-pdf"⟩
        { emptyInputs with url := some " x " } none none :=
  ⟨submit_html_trim.1 _ _ _ _ _ "  " (by decide) (by rfl) (by decide) (by rfl),
   submit_html_trim.2.1 _ _ _ _ _ "  " (by decide) (by rfl) (by decide),
   submit_html_trim.2.2 _ _ _ _ " x " (by decide) (by rfl) (by decide)⟩

/-- Witness for C3: the HTML-to-PDF capability with a blank URL input and an
absent HTML input. -/
theorem submit_html_validation_witness :
    submit ⟨"HTML to PDF", "HTML", "PDF", "/html-to-pdf"⟩
        { emptyInputs with url := some "" } none none (NetResult.success none) =
      [Event.setBusy true, Event.setMessage "",
       Event.setMessage "URL veya HTML içeriği girin", Event.setBusy false,
       Event.setBusy false] ∧
    (∀ u f, Event.post u f ∉
      submit ⟨"HTML to PDF", "HTML", "PDF", "/html-to-pdf"⟩
        { emptyInputs with url := some "" } none none (NetResult.success none)) ∧
    (runEvents ⟨false, ""⟩
      (submit ⟨"HTML to PDF", "HTML", "PDF", "/html-to-pdf"⟩
        { emptyInputs with url := some "" } none none
        (NetResult.success none))).busy = false :=
  submit_html_validation _ _ _ _ _ (by decide) (by decide) (by decide)
